import Mathlib

/-!
Shallow embedding of the ferrumc wire-format core:
* `src/net/packets/outgoing/chunk_and_light_data.rs` (chunk packet assembly,
  palette encoding, bit packing, light masks/arrays, registry lookups);
* `src/crates/ferrumc_utils/src/type_impls.rs` (primitive `Decode` impls).

Machine integers are modelled as `Nat` (u64 words carry an explicit `% 2 ^ 64`
where the source performs a shift that is subject to u64 wrapping).  Byte
streams are `List Nat`; fallible operations return `Except WireError`.
-/

namespace Ferrumc

/-- Error kinds of the core.  `missingBlockStates` is the source's
`Error::MissingBlockStates` variant (returned both for absent block-state and
absent biome substructures; the spec calls this kind `MissingSectionData`);
`generic` is `Error::Generic(String)`; `invalidUtf8` is the error
`String::from_utf8` converts into; `invalidVarInt` is the VarInt
size-exceeded error; `unwrapNone` models a Rust panic from `Option::unwrap`
on `None` (a failure mode distinct from returning an error). -/
inductive WireError where
  | generic (msg : String)
  | invalidUtf8
  | invalidVarInt
  | missingBlockStates
  | unwrapNone
deriving DecidableEq, Repr

/-! ## Data model (`world::chunkformat`, fields as used by the packet code) -/

/-- Block-state properties; only the `axis` field is ever set by this code. -/
structure Properties where
  axis : Option String
deriving Repr

/-- Palette entry: a block-state name plus optional properties. -/
structure Palette where
  name : String
  properties : Option Properties
deriving Repr

/-- Block states of a section: packed 64-bit words (`data`, i64 in the source,
modelled by their bit patterns as `Nat < 2 ^ 64`) and the palette. -/
structure BlockStates where
  data : Option (List Nat)
  palette : Option (List Palette)
deriving Repr

/-- Biomes of a section: only a palette of biome names. -/
structure Biomes where
  palette : List String
deriving Repr

/-- One 16x16x16 section of a chunk. -/
structure Section where
  block_states : Option BlockStates
  biomes : Option Biomes
  y : Int
  block_light : Option (List Nat)
  sky_light : Option (List Nat)
deriving Repr

/-- Heightmap structure of a chunk. -/
structure Heightmaps where
  motion_blocking_no_leaves : Option (List Nat)
  motion_blocking : Option (List Nat)
  ocean_floor : Option (List Nat)
  world_surface : Option (List Nat)
deriving Repr

/-- A chunk column.  The `structures` substructure carries no data used by
serialization and is modelled as `Unit`. -/
structure Chunk where
  status : String
  data_version : Int
  heightmaps : Option Heightmaps
  is_light_on : Option Nat
  inhabited_time : Option Int
  y_pos : Int
  x_pos : Int
  z_pos : Int
  structures : Option Unit
  last_update : Option Int
  sections : Option (List Section)

/-- Modelled from the spec: `BitSet` (crate `utils::encoding::bitset`, not in
the provided sources) — "a bitset with one bit per section in the column, set
when that section carries a non-empty light array".  `from_iter` collects the
iterated bits; `empty` has no bits. -/
structure BitSet where
  bits : List Nat
deriving Repr

/-- Modelled from the spec: `BitSet::from_iter`. -/
def BitSet.from_iter (l : List Nat) : BitSet := ⟨l⟩

/-- Modelled from the spec: `BitSet::empty`. -/
def BitSet.empty : BitSet := ⟨[]⟩

/-- Number of set bits in a `BitSet` (a bit is set when nonzero). -/
def BitSet.setBitCount (b : BitSet) : Nat := (b.bits.filter (fun x => x != 0)).length

/-- Light array: raw bytes. -/
structure LightArray where
  data : List Nat
deriving Repr

/-! ## Wire primitives

The VarInt codec and the scalar `Encode` impls live in the `ferrumc_codec`
crate, which is not among the provided sources; they are modelled from the
spec (sections 4.1 and 6). -/

/-- Modelled from the spec: VarInt encoding — 7 payload bits per byte,
least-significant group first, high bit of each byte is the continuation
flag. -/
def varIntBytes (v : Nat) : List Nat :=
  if h : v < 128 then [v]
  else (v % 128 + 128) :: varIntBytes (v / 128)
decreasing_by exact Nat.div_lt_self (by omega) (by omega)

/-- Modelled from the spec: big-endian encoding of a `w`-byte scalar
(sections 4.2 and 6: "all multi-byte scalars big-endian"). -/
def beBytes (w : Nat) (v : Nat) : List Nat :=
  (List.range w).map (fun i => v / 2 ^ (8 * (w - 1 - i)) % 256)

/-! ## Bit-Packer (`create_block_states`, lines 226-254)

The packing loop of `create_block_states`, with the entry width as a
parameter (the source instantiates `bits_per_block = 15`).  Per layer the
source keeps a `current_long` accumulator and a count of entries in it,
ORs each entry (masked to `bitsPerEntry` bits) at bit offset
`bitsPerEntry * count`, flushes the word once it holds
`64 / bitsPerEntry` entries, and flushes a final partial word. -/

/-- Packing loop state machine: `cur` is `current_long`, `cnt` is
`blocks_in_current_long`.  The shifted value carries the u64 wrap `% 2 ^ 64`
of the source's `<<` on `u64`. -/
def packAux (b : Nat) : List Nat → Nat → Nat → List Nat
  | [], cur, cnt => if 0 < cnt then [cur] else []
  | v :: rest, cur, cnt =>
    let cur' := cur ||| ((v &&& (2 ^ b - 1)) <<< (b * cnt)) % 2 ^ 64
    if cnt + 1 = 64 / b then
      cur' :: packAux b rest 0 0
    else
      packAux b rest cur' (cnt + 1)

/-- Pack a layer of entries into 64-bit words at `b` bits per entry. -/
def pack (b : Nat) (vs : List Nat) : List Nat := packAux b vs 0 0

/-- Modelled from the spec: the unpacker is "implied by the contract
(round-trip)" and is not in the sources.  Under the no-straddling layout an
entry with global index `i` lives in word `i / (64 / b)` at bit offset
`b * (i % (64 / b))`. -/
def unpackEntry (b : Nat) (ws : List Nat) (i : Nat) : Nat :=
  (ws.getD (i / (64 / b)) 0 >>> (b * (i % (64 / b)))) &&& (2 ^ b - 1)

/-- Modelled from the spec: unpack the first `n` entries of a packed word
list. -/
def unpack (b : Nat) (ws : List Nat) (n : Nat) : List Nat :=
  (List.range n).map (unpackEntry b ws)

/-- Embedding of `create_block_states` (lines 226-259): packs each layer at
15 bits per entry into one shared output vector (the accumulator is reset per
layer, so the output is the concatenation of per-layer packings); the final
u64-to-i64 transmute is a bit-pattern identity and the words stay `Nat`. -/
def create_block_states (chunk_data : List (List Nat)) (palette : List Palette) : BlockStates :=
  { data := some ((chunk_data.map (pack 15)).flatten)
    palette := some palette }

/-! ## Registry lookups (lines 294-311) -/

/-- Embedding of `get_block_state_id`: name-to-id lookup with fallback 0. -/
def get_block_state_id (block_name : String) : Int :=
  match block_name with
  | "minecraft:air" => 0
  | "minecraft:stone" => 1
  | "minecraft:grass_block" => 9
  | "minecraft:oak_log" => 131
  | _ => 0

/-- Embedding of `get_biome_id`: name-to-id lookup with fallback 0. -/
def get_biome_id (biome : String) : Int :=
  match biome with
  | "minecraft:plains" => 1
  | _ => 0

/-! ## Per-section serializers (lines 102-155) -/

/-- Modelled from the spec: `bits_per_biome` is computed in the source as
`(palette_len as f32).log2().ceil().max(1.0) as u8`; the f32 logarithm is
modelled as the exact ceiling base-2 logarithm (they agree for every palette
size the core produces — the emitted biome palette always has length 1,
where both give 1). -/
def bits_per_biome (palette_len : Nat) : Nat :=
  max (Nat.clog 2 palette_len) 1

/-- Embedding of `serialize_block_states` (lines 102-131): a fixed i16
non-air count of 4096 big-endian, the `bits_per_block = 15` byte, the VarInt
palette length, one VarInt registry id per palette entry, the VarInt word
count and the big-endian i64 words.  A missing palette is
`Error::MissingBlockStates`; the source calls `.unwrap()` on `data`
(a panic on `None`, modelled as `unwrapNone`). -/
def serialize_block_states (block_states : BlockStates) : Except WireError (List Nat) :=
  match block_states.palette with
  | none => .error .missingBlockStates
  | some palettes =>
    match block_states.data with
    | none => .error .unwrapNone
    | some block_data =>
      .ok (beBytes 2 4096 ++ [15]
        ++ varIntBytes palettes.length
        ++ (palettes.map (fun p => varIntBytes (get_block_state_id p.name).toNat)).flatten
        ++ varIntBytes block_data.length
        ++ (block_data.map (beBytes 8)).flatten)

/-- The hardcoded biome data array `vec![0u64; 64]` of `serialize_biomes`
(line 148): every biome voxel index is 0. -/
def biome_data : List Nat := List.replicate 64 0

/-- Embedding of `serialize_biomes` (lines 132-155): the bits-per-biome byte,
the VarInt palette length, one VarInt biome id per palette entry, then the
VarInt word count (64) and the 64 big-endian zero words. -/
def serialize_biomes (biomes : Biomes) : Except WireError (List Nat) :=
  .ok ([bits_per_biome biomes.palette.length]
    ++ varIntBytes biomes.palette.length
    ++ (biomes.palette.map (fun p => varIntBytes (get_biome_id p).toNat)).flatten
    ++ varIntBytes biome_data.length
    ++ (biome_data.map (beBytes 8)).flatten)

/-- Embedding of the section loop of `ChunkDataAndUpdateLight::new`
(lines 52-66): per section, a missing `block_states` or `biomes` substructure
aborts with `Error::MissingBlockStates`; otherwise the serialized block
states and biomes are appended to the shared payload. -/
def serializeSections : List Section → Except WireError (List Nat)
  | [] => .ok []
  | s :: rest =>
    match s.block_states with
    | none => .error .missingBlockStates
    | some bs =>
      match serialize_block_states bs with
      | .error e => .error e
      | .ok block_states_data =>
        match s.biomes with
        | none => .error .missingBlockStates
        | some bio =>
          match serialize_biomes bio with
          | .error e => .error e
          | .ok biomes_data =>
            match serializeSections rest with
            | .error e => .error e
            | .ok restData => .ok (block_states_data ++ biomes_data ++ restData)

/-! ## Stub chunk construction (`create_basic_chunk`, lines 157-224) -/

/-- Embedding of `create_basic_chunk`.  The section loop `for y in -4..=20`
iterates over the 25 values -4, -3, ..., 20 (an inclusive Rust range),
modelled as `(List.range 25).map (fun i => -4 + i)`.  The source also binds
unused `grass_palette` and `oak_log_palette` locals; they do not enter the
palette and are omitted.  Each section gets block states packed from one
layer of 4096 entries of value 1 over the [air, stone] palette, the
single-entry plains biome palette, and full-bright light nibbles. -/
def create_basic_chunk (chunk_x chunk_z : Int) : Chunk :=
  let air_palette : Palette := { name := "minecraft:air", properties := none }
  let stone_palette : Palette := { name := "minecraft:stone", properties := none }
  let palette := [air_palette, stone_palette]
  let sections := (List.range 25).map (fun i =>
    let chunk_data := [List.replicate (16 * 16 * 16) 1]
    let block_states := create_block_states chunk_data palette
    { block_states := some block_states
      biomes := some { palette := ["minecraft:plains"] }
      y := -4 + Int.ofNat i
      block_light := some (List.replicate 2048 0xf)
      sky_light := some (List.replicate 2048 0xf) : Section })
  let heightmap : List Nat := List.replicate 37 0
  { status := "full"
    data_version := 3465
    heightmaps := some
      { motion_blocking_no_leaves := none
        motion_blocking := some heightmap
        ocean_floor := none
        world_surface := some heightmap }
    is_light_on := some 1
    inhabited_time := some 0
    y_pos := -4
    x_pos := chunk_x
    z_pos := chunk_z
    structures := some ()
    last_update := some 0
    sections := some sections }

/-! ## Packet assembly (`ChunkDataAndUpdateLight::new`, lines 46-99) -/

/-- The `ChunkDataAndUpdateLight` packet structure (lines 11-30).  VarInt
fields carry their integer values; `data` is the serialized payload bytes. -/
structure ChunkDataAndUpdateLight where
  packet_id : Int
  chunk_x : Int
  chunk_z : Int
  heightmaps : Heightmaps
  data : List Nat
  block_entities_count : Int
  block_entities : List Unit
  sky_light_mask : BitSet
  block_light_mask : BitSet
  empty_sky_light_mask : BitSet
  empty_block_light_mask : BitSet
  sky_light_array_count : Int
  sky_light_arrays : List LightArray
  block_light_array_count : Int
  block_light_arrays : List LightArray

/-- The `SECTIONS` constant of `ChunkDataAndUpdateLight::new` (line 71). -/
def SECTIONS : Nat := 24

/-- Embedding of `ChunkDataAndUpdateLight::new`: builds the stub chunk,
serializes all its sections into one payload, and composes the packet with
full light masks, empty empty-masks and 24 full-bright 2048-byte light
arrays.  The source's `.unwrap()` calls on `chunk.sections` and
`chunk.heightmaps` are modelled as `unwrapNone`. -/
def ChunkDataAndUpdateLight.new (chunk_x chunk_z : Int) :
    Except WireError ChunkDataAndUpdateLight :=
  let chunk := create_basic_chunk chunk_x chunk_z
  match chunk.sections with
  | none => .error .unwrapNone
  | some sections =>
    match serializeSections sections with
    | .error e => .error e
    | .ok data =>
      match chunk.heightmaps with
      | none => .error .unwrapNone
      | some hm =>
        .ok
          { packet_id := 0x24
            chunk_x := chunk_x
            chunk_z := chunk_z
            heightmaps := hm
            data := data
            block_entities_count := 0
            block_entities := []
            sky_light_mask := BitSet.from_iter ((List.range SECTIONS).map (fun _ => 1))
            block_light_mask := BitSet.from_iter ((List.range SECTIONS).map (fun _ => 1))
            empty_sky_light_mask := BitSet.empty
            empty_block_light_mask := BitSet.empty
            sky_light_array_count := (SECTIONS : Int)
            sky_light_arrays := List.replicate SECTIONS { data := List.replicate 2048 0xFF }
            block_light_array_count := (SECTIONS : Int)
            block_light_arrays := List.replicate SECTIONS { data := List.replicate 2048 0xFF } }

/-! ## Primitive decode (`type_impls.rs`)

A byte stream is a `List Nat` read from the front; each decode returns the
decode result together with the remaining stream (the cursor position after
the call), so consumption is observable even on failure. -/

/-- Embedding of `read_exact(&mut buf)` on an `n`-byte buffer: consumes
exactly `n` bytes, or fails (stream closed / short read) when fewer are
available. -/
def readExact (n : Nat) (s : List Nat) : Except WireError (List Nat) × List Nat :=
  if n ≤ s.length then (.ok (s.take n), s.drop n)
  else (.error (.generic "failed to fill whole buffer"), [])

/-- Big-endian value of a byte list (`from_be_bytes`). -/
def beVal (bytes : List Nat) : Nat := bytes.foldl (fun a b => 256 * a + b) 0

/-- Two's-complement reading of a `w`-bit pattern (signed `from_be_bytes`). -/
def toSigned (w : Nat) (n : Nat) : Int :=
  if n < 2 ^ (w - 1) then (n : Int) else (n : Int) - 2 ^ w

/-- Embedding of `impl Decode for bool`: one byte, value `buf[0] != 0`; a
read failure is wrapped as `Error::Generic("Failed to read bool")`. -/
def decodeBool (s : List Nat) : Except WireError Bool × List Nat :=
  match readExact 1 s with
  | (.error _, r) => (.error (.generic "Failed to read bool"), r)
  | (.ok buf, r) => (.ok (buf.getD 0 0 != 0), r)

/-- Embedding of `impl Decode for u8`. -/
def decodeU8 (s : List Nat) : Except WireError Nat × List Nat :=
  match readExact 1 s with
  | (.error _, r) => (.error (.generic "Failed to read u8"), r)
  | (.ok buf, r) => (.ok (beVal buf), r)

/-- Embedding of `impl Decode for i8` (`buf[0] as i8`). -/
def decodeI8 (s : List Nat) : Except WireError Int × List Nat :=
  match readExact 1 s with
  | (.error _, r) => (.error (.generic "Failed to read i8"), r)
  | (.ok buf, r) => (.ok (toSigned 8 (beVal buf)), r)

/-- Embedding of `impl Decode for u16` (`u16::from_be_bytes`). -/
def decodeU16 (s : List Nat) : Except WireError Nat × List Nat :=
  match readExact 2 s with
  | (.error _, r) => (.error (.generic "Failed to read u16"), r)
  | (.ok buf, r) => (.ok (beVal buf), r)

/-- Embedding of `impl Decode for i16` (`i16::from_be_bytes`). -/
def decodeI16 (s : List Nat) : Except WireError Int × List Nat :=
  match readExact 2 s with
  | (.error _, r) => (.error (.generic "Failed to read i16"), r)
  | (.ok buf, r) => (.ok (toSigned 16 (beVal buf)), r)

/-- Embedding of `impl Decode for u32` (`u32::from_be_bytes`). -/
def decodeU32 (s : List Nat) : Except WireError Nat × List Nat :=
  match readExact 4 s with
  | (.error _, r) => (.error (.generic "Failed to read u32"), r)
  | (.ok buf, r) => (.ok (beVal buf), r)

/-- Embedding of `impl Decode for i32` (`i32::from_be_bytes`). -/
def decodeI32 (s : List Nat) : Except WireError Int × List Nat :=
  match readExact 4 s with
  | (.error _, r) => (.error (.generic "Failed to read i32"), r)
  | (.ok buf, r) => (.ok (toSigned 32 (beVal buf)), r)

/-- Embedding of `impl Decode for i64` (`i64::from_be_bytes`). -/
def decodeI64 (s : List Nat) : Except WireError Int × List Nat :=
  match readExact 8 s with
  | (.error _, r) => (.error (.generic "Failed to read i64"), r)
  | (.ok buf, r) => (.ok (toSigned 64 (beVal buf)), r)

/-- Embedding of `impl Decode for f32` (`f32::from_be_bytes`): the value is
a pure bit reinterpretation of the four big-endian bytes, modelled by its
32-bit pattern. -/
def decodeF32 (s : List Nat) : Except WireError Nat × List Nat :=
  match readExact 4 s with
  | (.error _, r) => (.error (.generic "Failed to read f32"), r)
  | (.ok buf, r) => (.ok (beVal buf), r)

/-- Embedding of `impl Decode for f64` (`f64::from_be_bytes`), modelled by
the 64-bit pattern. -/
def decodeF64 (s : List Nat) : Except WireError Nat × List Nat :=
  match readExact 8 s with
  | (.error _, r) => (.error (.generic "Failed to read f64"), r)
  | (.ok buf, r) => (.ok (beVal buf), r)

/-! ## VarInt decode and string decode -/

/-- Modelled from the spec: `read_varint` loop (crate
`ferrumc_utils::encoding::varint`, not in the provided sources) — reads one
byte at a time, shifts each 7-bit group into position, stops at a byte with
continuation bit 0, and fails with the size-exceeded error when more than 5
groups are consumed.  `g` counts the groups already read, `acc` the value
assembled so far. -/
def readVarIntAux : List Nat → Nat → Nat → Except WireError Nat × List Nat
  | [], _, _ => (.error (.generic "failed to fill whole buffer"), [])
  | byte :: rest, g, acc =>
    if 5 ≤ g then (.error .invalidVarInt, byte :: rest)
    else if byte < 128 then (.ok (acc + byte * 2 ^ (7 * g)), rest)
    else readVarIntAux rest (g + 1) (acc + byte % 128 * 2 ^ (7 * g))

/-- Modelled from the spec: `read_varint`. -/
def readVarInt (s : List Nat) : Except WireError Nat × List Nat :=
  readVarIntAux s 0 0

/-- Helper for UTF-8 validation: continuation byte `0x80..=0xBF`. -/
def isCont (b : Nat) : Bool := 128 ≤ b && b < 192

/-- Modelled from the spec: UTF-8 validity as checked by
`String::from_utf8` — the RFC 3629 byte patterns, rejecting overlong forms,
surrogates and code points above U+10FFFF. -/
def validUtf8 : List Nat → Bool
  | [] => true
  | b :: rest =>
    if b < 128 then validUtf8 rest
    else if 194 ≤ b && b ≤ 223 then
      match rest with
      | c1 :: rest2 => isCont c1 && validUtf8 rest2
      | [] => false
    else if b = 224 then
      match rest with
      | c1 :: c2 :: rest2 => (160 ≤ c1 && c1 < 192) && isCont c2 && validUtf8 rest2
      | _ => false
    else if (225 ≤ b && b ≤ 236) || (238 ≤ b && b ≤ 239) then
      match rest with
      | c1 :: c2 :: rest2 => isCont c1 && isCont c2 && validUtf8 rest2
      | _ => false
    else if b = 237 then
      match rest with
      | c1 :: c2 :: rest2 => (128 ≤ c1 && c1 < 160) && isCont c2 && validUtf8 rest2
      | _ => false
    else if b = 240 then
      match rest with
      | c1 :: c2 :: c3 :: rest2 =>
        (144 ≤ c1 && c1 < 192) && isCont c2 && isCont c3 && validUtf8 rest2
      | _ => false
    else if 241 ≤ b && b ≤ 243 then
      match rest with
      | c1 :: c2 :: c3 :: rest2 => isCont c1 && isCont c2 && isCont c3 && validUtf8 rest2
      | _ => false
    else if b = 244 then
      match rest with
      | c1 :: c2 :: c3 :: rest2 =>
        (128 ≤ c1 && c1 < 144) && isCont c2 && isCont c3 && validUtf8 rest2
      | _ => false
    else false

/-- Embedding of `impl Decode for String` (lines 155-168): read the VarInt
byte length, `read_exact` that many bytes, then validate UTF-8
(`String::from_utf8`); the decoded string is modelled by its UTF-8 bytes.
The UTF-8 check happens only after the full declared length has been
consumed from the stream. -/
def decodeString (s : List Nat) : Except WireError (List Nat) × List Nat :=
  match readVarInt s with
  | (.error e, r) => (.error e, r)
  | (.ok n, r) =>
    match readExact n r with
    | (.error e, r2) => (.error e, r2)
    | (.ok buf, r2) =>
      if validUtf8 buf then (.ok buf, r2) else (.error .invalidUtf8, r2)

/-! ## Helper lemmas for the bit-packer -/

/-- Disjoint OR is addition: bits of `a` lie below position `s`, bits of
`k * 2 ^ s` at or above it. -/
lemma lor_mul_pow_eq_add (a k s : Nat) (ha : a < 2 ^ s) :
    a ||| k * 2 ^ s = a + k * 2 ^ s := by
  apply Nat.eq_of_testBit_eq
  intro j
  have hrw : a + k * 2 ^ s = 2 ^ s * k + a := by ring
  rw [hrw, Nat.testBit_mul_pow_two_add k ha j, Nat.testBit_or]
  rcases Nat.lt_or_ge j s with hj | hj
  · have h1 : (k * 2 ^ s).testBit j = false := by
      rw [← Nat.shiftLeft_eq, Nat.testBit_shiftLeft]
      simp [Nat.not_le.mpr hj]
    simp [hj, h1]
  · have h0 : a.testBit j = false :=
      Nat.testBit_lt_two_pow (lt_of_lt_of_le ha (Nat.pow_le_pow_right (by norm_num) hj))
    have h1 : (k * 2 ^ s).testBit j = k.testBit (j - s) := by
      rw [← Nat.shiftLeft_eq, Nat.testBit_shiftLeft]
      simp [hj]
    simp [Nat.not_lt.mpr hj, h0, h1]

/-- The masked shifted entry of the packing step never wraps in u64 while the
word has room for it. -/
lemma maskShift_eq {b v : Nat} (cnt : Nat) (hv : v < 2 ^ b) (h : b * (cnt + 1) ≤ 64) :
    ((v &&& 2 ^ b - 1) <<< (b * cnt)) % 2 ^ 64 = v * 2 ^ (b * cnt) := by
  rw [Nat.and_pow_two_sub_one_of_lt_two_pow hv, Nat.shiftLeft_eq]
  apply Nat.mod_eq_of_lt
  have h1 : v * 2 ^ (b * cnt) < 2 ^ b * 2 ^ (b * cnt) :=
    mul_lt_mul_of_pos_right hv (Nat.two_pow_pos _)
  have h2 : (2 : Nat) ^ b * 2 ^ (b * cnt) = 2 ^ (b * (cnt + 1)) := by
    rw [← pow_add]; congr 1; ring
  calc v * 2 ^ (b * cnt) < 2 ^ (b * (cnt + 1)) := h2 ▸ h1
    _ ≤ 2 ^ 64 := Nat.pow_le_pow_right (by norm_num) h

/-- Arithmetic reading of `unpackEntry`. -/
lemma unpackEntry_eq_div_mod (b : Nat) (ws : List Nat) (i : Nat) :
    unpackEntry b ws i = ws.getD (i / (64 / b)) 0 / 2 ^ (b * (i % (64 / b))) % 2 ^ b := by
  simp only [unpackEntry]
  rw [Nat.shiftRight_eq_div_pow, Nat.and_pow_two_sub_one_eq_mod]

/-- Invariant of the packing loop: starting from a word `cur` holding `cnt`
entries (so `cur < 2 ^ (b * cnt)`), the low `b * cnt` bits of the first
emitted word stay equal to `cur`, and every further entry `vs[i]` lands at
global slot `cnt + i` of the no-straddling layout. -/
lemma packAux_spec (b : Nat) (hb1 : 1 ≤ b) (hb2 : b ≤ 63) :
    ∀ (vs : List Nat) (cur cnt : Nat),
      (∀ v ∈ vs, v < 2 ^ b) → cnt < 64 / b → cur < 2 ^ (b * cnt) →
      (packAux b vs cur cnt).getD 0 0 % 2 ^ (b * cnt) = cur ∧
      ∀ i (hi : i < vs.length),
        unpackEntry b (packAux b vs cur cnt) (cnt + i) = vs.get ⟨i, hi⟩ := by
  intro vs
  induction vs with
  | nil =>
    intro cur cnt _ _ hcur
    refine ⟨?_, by intro i hi; simp at hi⟩
    by_cases h : 0 < cnt
    · simp [packAux, h, Nat.mod_eq_of_lt hcur]
    · have hcnt0 : cnt = 0 := by omega
      subst hcnt0
      simp only [Nat.mul_zero, pow_zero] at hcur
      simp [packAux]
      omega
  | cons v rest ih =>
    intro cur cnt hvs hcnt hcur
    have he : 0 < 64 / b := Nat.div_pos (by omega) (by omega)
    have hv : v < 2 ^ b := hvs v (by simp)
    have hrest : ∀ x ∈ rest, x < 2 ^ b := fun x hx => hvs x (by simp [hx])
    have hble : b * (cnt + 1) ≤ 64 := by
      have h1 : b * (cnt + 1) ≤ b * (64 / b) := Nat.mul_le_mul_left b hcnt
      have h2 : b * (64 / b) ≤ 64 := by
        rw [Nat.mul_comm]; exact Nat.div_mul_le_self 64 b
      omega
    have hstep : packAux b (v :: rest) cur cnt =
        if cnt + 1 = 64 / b then (cur + v * 2 ^ (b * cnt)) :: packAux b rest 0 0
        else packAux b rest (cur + v * 2 ^ (b * cnt)) (cnt + 1) := by
      simp only [packAux]
      rw [maskShift_eq cnt hv hble, lor_mul_pow_eq_add cur v (b * cnt) hcur]
    have hcur' : cur + v * 2 ^ (b * cnt) < 2 ^ (b * (cnt + 1)) := by
      have h1 : v * 2 ^ (b * cnt) ≤ (2 ^ b - 1) * 2 ^ (b * cnt) :=
        Nat.mul_le_mul_right _ (by omega)
      have hC : (2 ^ b - 1) * 2 ^ (b * cnt) = 2 ^ b * 2 ^ (b * cnt) - 2 ^ (b * cnt) := by
        rw [Nat.sub_mul, one_mul]
      have hXA : 2 ^ (b * cnt) ≤ 2 ^ b * 2 ^ (b * cnt) :=
        Nat.le_mul_of_pos_left _ (Nat.two_pow_pos b)
      have h2 : (2 : Nat) ^ b * 2 ^ (b * cnt) = 2 ^ (b * (cnt + 1)) := by
        rw [← pow_add]; congr 1; ring
      omega
    by_cases hfl : cnt + 1 = 64 / b
    · obtain ⟨ihB, ihA⟩ := ih 0 0 hrest he (by simp)
      rw [hstep, if_pos hfl]
      constructor
      · show ((cur + v * 2 ^ (b * cnt)) :: packAux b rest 0 0).getD 0 0 % 2 ^ (b * cnt) = cur
        rw [List.getD_cons_zero, Nat.add_mul_mod_self_right, Nat.mod_eq_of_lt hcur]
      · intro i hi
        cases i with
        | zero =>
          show unpackEntry b ((cur + v * 2 ^ (b * cnt)) :: packAux b rest 0 0) (cnt + 0) = v
          rw [Nat.add_zero, unpackEntry_eq_div_mod,
            Nat.div_eq_of_lt hcnt, Nat.mod_eq_of_lt hcnt, List.getD_cons_zero]
          have hdiv : (cur + v * 2 ^ (b * cnt)) / 2 ^ (b * cnt) = v := by
            rw [show cur + v * 2 ^ (b * cnt) = 2 ^ (b * cnt) * v + cur by ring]
            rw [Nat.mul_add_div (Nat.two_pow_pos _), Nat.div_eq_of_lt hcur, Nat.add_zero]
          rw [hdiv, Nat.mod_eq_of_lt hv]
        | succ j =>
          have hj : j < rest.length := by
            simp only [List.length_cons] at hi; omega
          have hidx : cnt + (j + 1) = j + 64 / b := by omega
          rw [hidx, unpackEntry_eq_div_mod, Nat.add_div_right j he, Nat.add_mod_right]
          simp only [Nat.succ_eq_add_one, List.getD_cons_succ]
          have h5 := ihA j hj
          rw [Nat.zero_add, unpackEntry_eq_div_mod] at h5
          exact h5
    · have hcnt1 : cnt + 1 < 64 / b := by omega
      obtain ⟨ihB, ihA⟩ := ih (cur + v * 2 ^ (b * cnt)) (cnt + 1) hrest hcnt1 hcur'
      rw [hstep, if_neg hfl]
      constructor
      · have hdvd : (2 : Nat) ^ (b * cnt) ∣ 2 ^ (b * (cnt + 1)) :=
          pow_dvd_pow 2 (Nat.mul_le_mul_left b (by omega))
        calc (packAux b rest (cur + v * 2 ^ (b * cnt)) (cnt + 1)).getD 0 0 % 2 ^ (b * cnt)
            = (packAux b rest (cur + v * 2 ^ (b * cnt)) (cnt + 1)).getD 0 0
                % 2 ^ (b * (cnt + 1)) % 2 ^ (b * cnt) :=
              (Nat.mod_mod_of_dvd _ hdvd).symm
          _ = (cur + v * 2 ^ (b * cnt)) % 2 ^ (b * cnt) := by rw [ihB]
          _ = cur := by rw [Nat.add_mul_mod_self_right, Nat.mod_eq_of_lt hcur]
      · intro i hi
        cases i with
        | zero =>
          show unpackEntry b (packAux b rest (cur + v * 2 ^ (b * cnt)) (cnt + 1)) cnt = v
          rw [unpackEntry_eq_div_mod, Nat.div_eq_of_lt hcnt, Nat.mod_eq_of_lt hcnt]
          have hpow : (2 : Nat) ^ (b * cnt) * 2 ^ b = 2 ^ (b * (cnt + 1)) := by
            rw [← pow_add, Nat.mul_succ]
          rw [← Nat.mod_mul_right_div_self, hpow, ihB,
            show cur + v * 2 ^ (b * cnt) = 2 ^ (b * cnt) * v + cur by ring,
            Nat.mul_add_div (Nat.two_pow_pos _), Nat.div_eq_of_lt hcur, Nat.add_zero]
        | succ j =>
          have hj : j < rest.length := by
            simp only [List.length_cons] at hi; omega
          have hidx : cnt + (j + 1) = (cnt + 1) + j := by omega
          rw [hidx]
          exact ihA j hj

/-- C1: for every `bitsPerEntry` in 1..=63 and every sequence of values each
strictly below `2 ^ bitsPerEntry`, packing the sequence into 64-bit words by
the no-straddling loop of `create_block_states` and unpacking with the same
width reproduces the exact input sequence. -/
theorem c1_bit_packer_roundtrip (b : Nat) (hb1 : 1 ≤ b) (hb2 : b ≤ 63)
    (vs : List Nat) (hvs : ∀ v ∈ vs, v < 2 ^ b) :
    unpack b (pack b vs) vs.length = vs := by
  have hspec := (packAux_spec b hb1 hb2 vs 0 0 hvs
    (Nat.div_pos (by omega) (by omega)) (by simp)).2
  apply List.ext_get
  · simp [unpack]
  · intro i h1 h2
    have h3 := hspec i h2
    rw [Nat.zero_add] at h3
    simpa [unpack] using h3

/-- Witness for C1 at width 15 on a concrete entry sequence. -/
theorem c1_bit_packer_roundtrip_witness :
    unpack 15 (pack 15 [5, 3, 32000, 7, 9]) 5 = [5, 3, 32000, 7, 9] :=
  c1_bit_packer_roundtrip 15 (by decide) (by decide) [5, 3, 32000, 7, 9] (by decide)

/-- Word count of the packing loop: with `cnt` entries already in the current
word, packing `n` further entries emits `ceil((n + cnt) / floor(64 / b))`
words. -/
lemma packAux_length (b : Nat) (hb1 : 1 ≤ b) (hb2 : b ≤ 63) :
    ∀ (vs : List Nat) (cur cnt : Nat), cnt < 64 / b →
      (packAux b vs cur cnt).length = (vs.length + cnt + 64 / b - 1) / (64 / b) := by
  have he : 0 < 64 / b := Nat.div_pos (by omega) (by omega)
  intro vs
  induction vs with
  | nil =>
    intro cur cnt hcnt
    by_cases h : 0 < cnt
    · simp only [packAux, if_pos h, List.length_singleton, List.length_nil]
      rw [show 0 + cnt + 64 / b - 1 = cnt - 1 + 64 / b by omega,
        Nat.add_div_right _ he, Nat.div_eq_of_lt (by omega)]
    · simp only [packAux, if_neg h, List.length_nil]
      rw [Nat.div_eq_of_lt (by omega)]
  | cons v rest ih =>
    intro cur cnt hcnt
    simp only [packAux, List.length_cons]
    by_cases hfl : cnt + 1 = 64 / b
    · rw [if_pos hfl, List.length_cons, ih 0 0 he]
      rw [show rest.length + 1 + cnt + 64 / b - 1 = rest.length + 0 + 64 / b - 1 + 64 / b by
        omega]
      rw [Nat.add_div_right _ he]
    · rw [if_neg hfl, ih _ (cnt + 1) (by omega)]
      congr 1
      omega

/-- C2: every bit-packed array the core emits has
`ceil(N / floor(64 / bitsPerEntry))` 64-bit words.  First conjunct: the
packing loop of `create_block_states` satisfies the formula for every width
in 1..=63 and every entry sequence.  Second conjunct: the block-state array
of a 4096-voxel section packed at 15 bits per entry (as `create_basic_chunk`
builds it) is exactly 1024 words, matching the formula.  Third conjunct: the
emitted biome data array is 64 words, matching the formula at the emitted
biome width `bits_per_biome 1 = 1` with N = 4096 biome entries. -/
theorem c2_word_count :
    (∀ b, 1 ≤ b → b ≤ 63 → ∀ vs : List Nat,
        (pack b vs).length = (vs.length + 64 / b - 1) / (64 / b)) ∧
    (∀ palette, ((create_block_states [List.replicate 4096 1] palette).data.getD []).length
        = (4096 + 64 / 15 - 1) / (64 / 15)
      ∧ ((create_block_states [List.replicate 4096 1] palette).data.getD []).length = 1024) ∧
    (biome_data.length = (4096 + 64 / bits_per_biome 1 - 1) / (64 / bits_per_biome 1)
      ∧ biome_data.length = 64) := by
  have hgen : ∀ b, 1 ≤ b → b ≤ 63 → ∀ vs : List Nat,
      (pack b vs).length = (vs.length + 64 / b - 1) / (64 / b) := by
    intro b hb1 hb2 vs
    have h := packAux_length b hb1 hb2 vs 0 0 (Nat.div_pos (by omega) (by omega))
    simpa [pack] using h
  refine ⟨hgen, ?_, ?_⟩
  · intro palette
    have h1 : ((create_block_states [List.replicate 4096 1] palette).data.getD []).length
        = (pack 15 (List.replicate 4096 1)).length := by
      show (pack 15 (List.replicate 4096 1) ++ []).length = _
      rw [List.append_nil]
    have h2 := hgen 15 (by norm_num) (by norm_num) (List.replicate 4096 1)
    rw [List.length_replicate] at h2
    exact ⟨by rw [h1, h2], by rw [h1, h2]⟩
  · have hbpb : bits_per_biome 1 = 1 := by
      simp [bits_per_biome, Nat.clog_one_right]
    refine ⟨?_, by simp [biome_data]⟩
    rw [hbpb]
    simp [biome_data]

/-- Witness for C2's general word-count formula at width 15 on the
4096-entry layer. -/
theorem c2_word_count_witness :
    (pack 15 (List.replicate 4096 1)).length = 1024 := by
  have h := c2_word_count.1 15 (by norm_num) (by norm_num) (List.replicate 4096 1)
  rw [List.length_replicate] at h
  rw [h]

/-- C3 (code bug): `create_basic_chunk` builds 25 sections, not 24 — its
loop `for y in -4..=20` iterates the 25 values -4..20 inclusive, although
the surrounding code says 24 everywhere (`Vec::with_capacity(24)`, the
comment "24 sections for -64 to 320 world height", the `SECTIONS: usize =
24` constant used for the light data).  The data payload consequently
concatenates 25 per-section payloads. -/
theorem c3_section_count :
    ((create_basic_chunk 0 0).sections.getD []).length = 25 := by
  have h : (create_basic_chunk 0 0).sections.getD []
      = (List.range 25).map (fun i =>
        ({ block_states := some (create_block_states [List.replicate (16 * 16 * 16) 1]
              [{ name := "minecraft:air", properties := none },
               { name := "minecraft:stone", properties := none }])
           biomes := some { palette := ["minecraft:plains"] }
           y := -4 + Int.ofNat i
           block_light := some (List.replicate 2048 0xf)
           sky_light := some (List.replicate 2048 0xf) } : Section)) := rfl
  rw [h, List.length_map, List.length_range]

/-- C9: every block-state name outside the static table and every biome name
other than minecraft:plains resolves to identifier 0; both lookups are total
Lean functions on strings, so they never fail. -/
theorem c9_registry_fallback (block_name biome : String)
    (hb : block_name ∉ ["minecraft:air", "minecraft:stone", "minecraft:grass_block",
      "minecraft:oak_log"])
    (hbio : biome ≠ "minecraft:plains") :
    get_block_state_id block_name = 0 ∧ get_biome_id biome = 0 := by
  simp only [List.mem_cons, List.not_mem_nil, or_false, not_or] at hb
  obtain ⟨h1, h2, h3, h4⟩ := hb
  constructor
  · unfold get_block_state_id
    split <;> simp_all
  · unfold get_biome_id
    split <;> simp_all

/-- Witness for C9 at concrete unknown names. -/
theorem c9_registry_fallback_witness :
    get_block_state_id "minecraft:dirt" = 0 ∧ get_biome_id "minecraft:desert" = 0 :=
  c9_registry_fallback "minecraft:dirt" "minecraft:desert" (by decide) (by decide)

/-- C6: serializing block states for a section whose palette is the 2-entry
sequence [minecraft:air, minecraft:stone] emits, in the palette portion of
the payload (right after the fixed non-air count and the bits-per-entry
byte), the VarInt palette length 2 followed by the VarInt-encoded registry
identifiers 0 and 1, in that order. -/
theorem c6_palette_encoding (d : List Nat) :
    serialize_block_states
      { data := some d
        palette := some [{ name := "minecraft:air", properties := none },
          { name := "minecraft:stone", properties := none }] }
      = .ok (beBytes 2 4096 ++ [15]
        ++ (varIntBytes 2 ++ (varIntBytes 0 ++ varIntBytes 1))
        ++ varIntBytes d.length ++ (d.map (beBytes 8)).flatten) := by
  simp [serialize_block_states, get_block_state_id]

/-- C10: the serialized biome payload ends in a fixed data array — the
VarInt word count 64 followed by 64 zero 64-bit words — independent of any
per-voxel biome content (a `Biomes` value carries only its palette), and the
preceding header depends only on the palette. -/
theorem c10_biome_data_fixed (biomes : Biomes) :
    ∃ hdr, serialize_biomes biomes
      = .ok (hdr ++ (varIntBytes 64 ++ (List.replicate 64 (beBytes 8 0)).flatten))
      ∧ hdr = [bits_per_biome biomes.palette.length]
        ++ varIntBytes biomes.palette.length
        ++ (biomes.palette.map (fun p => varIntBytes (get_biome_id p).toNat)).flatten := by
  refine ⟨_, ?_, rfl⟩
  simp [serialize_biomes, biome_data, List.map_replicate]

/-- Section exhibiting the C5 counterexample: it lacks biome data, but its
block-state structure is present with a palette and an absent inner voxel
data array. -/
def c5BadSection : Section :=
  { block_states := some { data := none, palette := some [] }
    biomes := none
    y := 0
    block_light := none
    sky_light := none }

/-- Bare section with no substructures at all. -/
def c5EmptySection : Section :=
  { block_states := none, biomes := none, y := 0, block_light := none, sky_light := none }

/-- C5 counterexample: a section that lacks biome data does not always make
assembly return the MissingSectionData error — when that section's
block-state structure is present (with a palette) but its inner voxel data
array is absent, the source panics on `block_states.data.as_ref().unwrap()`
(modelled `unwrapNone`) before the biome check is reached: a failure mode
other than returning MissingSectionData. -/
theorem c5_counterexample :
    c5BadSection.biomes = none ∧
    serializeSections [c5BadSection] = .error .unwrapNone ∧
    WireError.unwrapNone ≠ WireError.missingBlockStates := by
  exact ⟨rfl, rfl, by decide⟩

/-- C5 (amended): if some section lacks the block-state substructure or the
biome substructure, and every section's present block-state structure
carries its inner voxel data array (ruling out the source's `unwrap` panic),
then packet assembly fails by returning the `MissingBlockStates` error (the
kind the spec names MissingSectionData, used for both missing block states
and missing biomes) and emits no partial output. -/
theorem c5_missing_section_error (sections : List Section)
    (hdata : ∀ s ∈ sections, ∀ bs, s.block_states = some bs → bs.data ≠ none)
    (hmiss : ∃ s ∈ sections, s.block_states = none ∨ s.biomes = none) :
    serializeSections sections = .error .missingBlockStates := by
  induction sections with
  | nil => simp at hmiss
  | cons s rest ih =>
    obtain ⟨t, ht, hprop⟩ := hmiss
    cases hbs : s.block_states with
    | none => simp [serializeSections, hbs]
    | some bs =>
      cases hpal : bs.palette with
      | none => simp [serializeSections, hbs, serialize_block_states, hpal]
      | some pal =>
        cases hdat : bs.data with
        | none => exact absurd hdat (hdata s (by simp) bs hbs)
        | some d =>
          cases hbio : s.biomes with
          | none => simp [serializeSections, hbs, serialize_block_states, hpal, hdat, hbio]
          | some bio =>
            have htrest : t ∈ rest := by
              rcases List.mem_cons.mp ht with h | h
              · subst h
                rcases hprop with h' | h' <;> simp_all
              · exact h
            have hrest := ih (fun x hx => hdata x (by simp [hx])) ⟨t, htrest, hprop⟩
            simp [serializeSections, hbs, serialize_block_states, hpal, hdat, hbio,
              serialize_biomes, hrest]

/-- Witness for the amended C5 at a one-section chunk lacking both
substructures. -/
theorem c5_missing_section_error_witness :
    serializeSections [c5EmptySection] = .error .missingBlockStates :=
  c5_missing_section_error [c5EmptySection]
    (by
      intro s hs bs hbs
      rw [List.mem_singleton] at hs
      subst hs
      simp [c5EmptySection] at hbs)
    ⟨c5EmptySection, by simp, Or.inl rfl⟩

/-- Unfolding of `varIntBytes` on a one-byte value. -/
lemma varIntBytes_lt {v : Nat} (h : v < 128) : varIntBytes v = [v] := by
  unfold varIntBytes
  simp [h]

/-- Unfolding of `varIntBytes` on a multi-byte value. -/
lemma varIntBytes_ge {v : Nat} (h : ¬ v < 128) :
    varIntBytes v = (v % 128 + 128) :: varIntBytes (v / 128) := by
  conv_lhs => rw [varIntBytes]
  simp [h]

/-- VarInt decoding inverts VarInt encoding, for any value fitting in the
groups the reader still allows. -/
lemma readVarIntAux_append (n : Nat) : ∀ (g acc : Nat) (t : List Nat),
    g ≤ 4 → n < 2 ^ (7 * (5 - g)) →
    readVarIntAux (varIntBytes n ++ t) g acc = (.ok (acc + n * 2 ^ (7 * g)), t) := by
  induction n using Nat.strong_induction_on with
  | _ n ih =>
    intro g acc t hg hn
    by_cases h : n < 128
    · rw [varIntBytes_lt h, List.singleton_append]
      simp only [readVarIntAux]
      rw [if_neg (by omega : ¬ 5 ≤ g), if_pos h]
    · have hglt : g ≤ 3 := by
        have h7 : (2 : Nat) ^ 7 ≤ n := by omega
        have hlt : (2 : Nat) ^ 7 < 2 ^ (7 * (5 - g)) := lt_of_le_of_lt h7 hn
        have := (Nat.pow_lt_pow_iff_right (by norm_num : 1 < 2)).mp hlt
        omega
      have hdivlt : n / 128 < 2 ^ (7 * (5 - (g + 1))) := by
        rw [Nat.div_lt_iff_lt_mul (by norm_num : 0 < 128)]
        have hsplit : 7 * (5 - g) = 7 * (5 - (g + 1)) + 7 := by omega
        rw [hsplit, pow_add] at hn
        calc n < 2 ^ (7 * (5 - (g + 1))) * 2 ^ 7 := hn
          _ = 2 ^ (7 * (5 - (g + 1))) * 128 := by norm_num
      rw [varIntBytes_ge h, List.cons_append]
      simp only [readVarIntAux]
      rw [if_neg (by omega : ¬ 5 ≤ g), if_neg (by omega : ¬ n % 128 + 128 < 128),
        show (n % 128 + 128) % 128 = n % 128 by omega,
        ih (n / 128) (Nat.div_lt_self (by omega) (by omega)) (g + 1)
          (acc + n % 128 * 2 ^ (7 * g)) t (by omega) hdivlt]
      have key : acc + n % 128 * 2 ^ (7 * g) + n / 128 * 2 ^ (7 * (g + 1))
          = acc + n * 2 ^ (7 * g) := by
        have h1 : (2 : Nat) ^ (7 * (g + 1)) = 2 ^ (7 * g) * 128 := by
          rw [show 7 * (g + 1) = 7 * g + 7 by ring, pow_add]
          norm_num
        rw [h1]
        have h2 : n % 128 + 128 * (n / 128) = n := by omega
        calc acc + n % 128 * 2 ^ (7 * g) + n / 128 * (2 ^ (7 * g) * 128)
            = acc + (n % 128 + 128 * (n / 128)) * 2 ^ (7 * g) := by ring
          _ = acc + n * 2 ^ (7 * g) := by rw [h2]
      rw [key]

/-- Round trip of the VarInt codec at the stream level. -/
lemma readVarInt_round (n : Nat) (t : List Nat) (hn : n < 2 ^ 35) :
    readVarInt (varIntBytes n ++ t) = (.ok n, t) := by
  have h := readVarIntAux_append n 0 0 t (by omega) (by simpa using hn)
  simpa [readVarInt] using h

/-- C7: string decoding reads the VarInt byte-length prefix, then consumes
exactly that many bytes from the stream, and only then validates UTF-8: on
a payload of the declared length that is not valid UTF-8 it fails with
InvalidUtf8, and the stream cursor after the failure sits exactly past the
declared length — never fewer bytes consumed than declared. -/
theorem c7_string_invalid_utf8 (n : Nat) (payload rest : List Nat)
    (hn : n < 2 ^ 31) (hlen : payload.length = n) (hbad : validUtf8 payload = false) :
    decodeString (varIntBytes n ++ (payload ++ rest)) = (.error .invalidUtf8, rest) := by
  have h1 : readVarInt (varIntBytes n ++ (payload ++ rest)) = (.ok n, payload ++ rest) :=
    readVarInt_round n _ (by omega)
  have h2 : readExact n (payload ++ rest) = (.ok payload, rest) := by
    unfold readExact
    rw [if_pos (by rw [List.length_append]; omega), List.take_left' hlen,
      List.drop_left' hlen]
  simp only [decodeString, h1, h2, hbad, Bool.false_eq_true, if_false]

/-- Witness for C7 on a 1-byte invalid UTF-8 payload. -/
theorem c7_string_invalid_utf8_witness :
    decodeString (varIntBytes 1 ++ ([0xFF] ++ [1, 2])) = (.error .invalidUtf8, [1, 2]) :=
  c7_string_invalid_utf8 1 [0xFF] [1, 2] (by norm_num) rfl rfl

/-- C8: each fixed-width scalar decode reads exactly the type's width in
big-endian bytes from the front of the stream and returns the value those
bytes denote (two's complement for the signed types, the IEEE bit pattern
for the floats), leaving exactly the rest of the stream; a stream shorter
than the width fails, surfaced as the single generic error category carrying
that impl's descriptive message. -/
theorem c8_scalar_decode (s : List Nat) :
    decodeBool s = (if 1 ≤ s.length then (.ok ((s.take 1).getD 0 0 != 0), s.drop 1)
      else (.error (.generic "Failed to read bool"), [])) ∧
    decodeU8 s = (if 1 ≤ s.length then (.ok (beVal (s.take 1)), s.drop 1)
      else (.error (.generic "Failed to read u8"), [])) ∧
    decodeI8 s = (if 1 ≤ s.length then (.ok (toSigned 8 (beVal (s.take 1))), s.drop 1)
      else (.error (.generic "Failed to read i8"), [])) ∧
    decodeU16 s = (if 2 ≤ s.length then (.ok (beVal (s.take 2)), s.drop 2)
      else (.error (.generic "Failed to read u16"), [])) ∧
    decodeI16 s = (if 2 ≤ s.length then (.ok (toSigned 16 (beVal (s.take 2))), s.drop 2)
      else (.error (.generic "Failed to read i16"), [])) ∧
    decodeU32 s = (if 4 ≤ s.length then (.ok (beVal (s.take 4)), s.drop 4)
      else (.error (.generic "Failed to read u32"), [])) ∧
    decodeI32 s = (if 4 ≤ s.length then (.ok (toSigned 32 (beVal (s.take 4))), s.drop 4)
      else (.error (.generic "Failed to read i32"), [])) ∧
    decodeI64 s = (if 8 ≤ s.length then (.ok (toSigned 64 (beVal (s.take 8))), s.drop 8)
      else (.error (.generic "Failed to read i64"), [])) ∧
    decodeF32 s = (if 4 ≤ s.length then (.ok (beVal (s.take 4)), s.drop 4)
      else (.error (.generic "Failed to read f32"), [])) ∧
    decodeF64 s = (if 8 ≤ s.length then (.ok (beVal (s.take 8)), s.drop 8)
      else (.error (.generic "Failed to read f64"), [])) := by
  refine ⟨?_, ?_, ?_, ?_, ?_, ?_, ?_, ?_, ?_, ?_⟩
  · unfold decodeBool readExact
    by_cases h : 1 ≤ s.length <;> simp [h]
  · unfold decodeU8 readExact
    by_cases h : 1 ≤ s.length <;> simp [h]
  · unfold decodeI8 readExact
    by_cases h : 1 ≤ s.length <;> simp [h]
  · unfold decodeU16 readExact
    by_cases h : 2 ≤ s.length <;> simp [h]
  · unfold decodeI16 readExact
    by_cases h : 2 ≤ s.length <;> simp [h]
  · unfold decodeU32 readExact
    by_cases h : 4 ≤ s.length <;> simp [h]
  · unfold decodeI32 readExact
    by_cases h : 4 ≤ s.length <;> simp [h]
  · unfold decodeI64 readExact
    by_cases h : 8 ≤ s.length <;> simp [h]
  · unfold decodeF32 readExact
    by_cases h : 4 ≤ s.length <;> simp [h]
  · unfold decodeF64 readExact
    by_cases h : 8 ≤ s.length <;> simp [h]

/-- A list of sections whose substructures are all present serializes
successfully. -/
lemma serializeSections_ok (l : List Section)
    (h : ∀ s ∈ l, (∃ bs pal d, s.block_states = some bs ∧ bs.palette = some pal
      ∧ bs.data = some d) ∧ s.biomes.isSome) :
    ∃ out, serializeSections l = .ok out := by
  induction l with
  | nil => exact ⟨[], rfl⟩
  | cons s rest ih =>
    obtain ⟨⟨bs, pal, d, hbs, hpal, hdat⟩, hbio⟩ := h s (by simp)
    obtain ⟨bio, hbio'⟩ := Option.isSome_iff_exists.mp hbio
    obtain ⟨out, hout⟩ := ih (fun x hx => h x (by simp [hx]))
    simp only [serializeSections, hbs, serialize_block_states, hpal, hdat, hbio',
      serialize_biomes, hout]
    exact ⟨_, rfl⟩

/-- C4: the packet assembled for the stub chunk at (0,0) has packet id 0x24,
sky-light and block-light masks with exactly 24 bits set, empty-masks with
no bits set, and exactly 24 sky-light and 24 block-light arrays, each
exactly 2048 bytes every one of which is 0xFF. -/
theorem c4_stub_packet :
    ∃ p, ChunkDataAndUpdateLight.new 0 0 = .ok p
      ∧ p.packet_id = 0x24
      ∧ p.sky_light_mask.setBitCount = 24
      ∧ p.block_light_mask.setBitCount = 24
      ∧ p.empty_sky_light_mask.setBitCount = 0
      ∧ p.empty_block_light_mask.setBitCount = 0
      ∧ p.sky_light_arrays = List.replicate 24 { data := List.replicate 2048 0xFF }
      ∧ p.block_light_arrays = List.replicate 24 { data := List.replicate 2048 0xFF } := by
  have hform : (create_basic_chunk 0 0).sections.getD []
      = (List.range 25).map (fun i =>
        ({ block_states := some (create_block_states [List.replicate (16 * 16 * 16) 1]
              [{ name := "minecraft:air", properties := none },
               { name := "minecraft:stone", properties := none }])
           biomes := some { palette := ["minecraft:plains"] }
           y := -4 + Int.ofNat i
           block_light := some (List.replicate 2048 0xf)
           sky_light := some (List.replicate 2048 0xf) } : Section)) := rfl
  obtain ⟨out, hout⟩ : ∃ out, serializeSections
      ((create_basic_chunk 0 0).sections.getD []) = .ok out := by
    apply serializeSections_ok
    intro s hs
    rw [hform] at hs
    obtain ⟨i, _, rfl⟩ := List.mem_map.mp hs
    exact ⟨⟨_, _, _, rfl, rfl, rfl⟩, rfl⟩
  have hnew : ChunkDataAndUpdateLight.new 0 0 =
      match serializeSections ((create_basic_chunk 0 0).sections.getD []) with
      | .error e => .error e
      | .ok data => .ok
          { packet_id := 0x24
            chunk_x := 0
            chunk_z := 0
            heightmaps :=
              { motion_blocking_no_leaves := none
                motion_blocking := some (List.replicate 37 0)
                ocean_floor := none
                world_surface := some (List.replicate 37 0) }
            data := data
            block_entities_count := 0
            block_entities := []
            sky_light_mask := BitSet.from_iter ((List.range SECTIONS).map (fun _ => 1))
            block_light_mask := BitSet.from_iter ((List.range SECTIONS).map (fun _ => 1))
            empty_sky_light_mask := BitSet.empty
            empty_block_light_mask := BitSet.empty
            sky_light_array_count := (SECTIONS : Int)
            sky_light_arrays := List.replicate SECTIONS { data := List.replicate 2048 0xFF }
            block_light_array_count := (SECTIONS : Int)
            block_light_arrays :=
              List.replicate SECTIONS { data := List.replicate 2048 0xFF } } := rfl
  rw [hout] at hnew
  refine ⟨_, hnew, rfl, ?_, ?_, rfl, rfl, rfl, rfl⟩ <;>
    · show (BitSet.from_iter ((List.range SECTIONS).map (fun _ => 1))).setBitCount = 24
      decide

end Ferrumc
